import Mathlib

/-!
Verification of `httpclient.py` from web-page-replay: the controllable
record/replay HTTP fetch layer.  The embedding models the byte stream of a
live HTTP response as a `List Char`, the archive as an association list, and
the external collaborators (DNS resolver, live connection, archive
closest-match/diff queries, cache-miss tracker, deterministic-script
injector) as function parameters.  Interactions with collaborators are
recorded as an explicit event trace so that claims about which operations a
code path invokes are observable.
-/

instance {ε α : Type} [DecidableEq ε] [DecidableEq α] : DecidableEq (Except ε α) := fun
  | .error a, .error b =>
    if h : a = b then .isTrue (by rw [h]) else .isFalse fun hh => h (by cases hh; rfl)
  | .error _, .ok _ => .isFalse fun hh => Except.noConfusion hh
  | .ok _, .error _ => .isFalse fun hh => Except.noConfusion hh
  | .ok a, .ok b =>
    if h : a = b then .isTrue (by rw [h]) else .isFalse fun hh => h (by cases hh; rfl)

/-- Raw bytes of the wire stream, one `Char` per byte. -/
abbrev Bytes := List Char

/-- HTTP headers as passed alongside a request (`request_headers` dict). -/
abbrev Headers := List (String × String)

/-- `fp.readline()`: read bytes up to and including the first `'\n'`;
at end of stream it returns the empty string. -/
def readline : Bytes → Bytes × Bytes
  | [] => ([], [])
  | c :: rest =>
    if c = '\n' then ([c], rest)
    else
      let p := readline rest
      (c :: p.1, p.2)

/-- Python whitespace as stripped by `int(str, 16)`. -/
def isPySpace (c : Char) : Bool :=
  c = ' ' || c = '\t' || c = '\n' || c = '\r' || c = '\x0b' || c = '\x0c'

/-- Strip Python whitespace from both ends of a byte string. -/
def pyStrip (s : Bytes) : Bytes :=
  ((s.dropWhile isPySpace).reverse.dropWhile isPySpace).reverse

/-- Value of one hexadecimal digit, `none` for a non-digit. -/
def hexVal (c : Char) : Option Nat :=
  if '0' ≤ c ∧ c ≤ '9' then some (c.toNat - '0'.toNat)
  else if 'a' ≤ c ∧ c ≤ 'f' then some (c.toNat - 'a'.toNat + 10)
  else if 'A' ≤ c ∧ c ≤ 'F' then some (c.toNat - 'A'.toNat + 10)
  else none

/-- Value of a non-empty all-hex digit string, most significant first. -/
def hexDigitsVal : Bytes → Option Nat
  | [] => none
  | ds => ds.foldl (fun acc c => acc.bind fun n => (hexVal c).map fun v => 16 * n + v) (some 0)

/-- Python 2 `int(line, 16)`: strip whitespace, allow an optional sign and an
optional `0x`/`0X` prefix, then parse hex digits; `none` models the
`ValueError` raised on anything else. -/
def pyIntHex (line : Bytes) : Option Int :=
  let s := pyStrip line
  let signAndRest : Int × Bytes :=
    match s with
    | '+' :: r => (1, r)
    | '-' :: r => (-1, r)
    | _ => (1, s)
  let s1 := signAndRest.2
  let s2 :=
    match s1 with
    | '0' :: x :: r => if x = 'x' ∨ x = 'X' then r else s1
    | _ => s1
  (hexDigitsVal s2).map fun n => signAndRest.1 * n

/-- `DetailedHTTPResponse._read_chunk_size(line)`.  The source computes
`chunk_extensions_pos = line.find(';')` and, when a `;` is present, executes
`line = line[:extention_pos]` — but `extention_pos` is an undefined name
(the assigned variable is `chunk_extensions_pos`), so that branch raises a
`NameError` at runtime, modelled as `.error ()`.  Otherwise the line is
parsed with `int(line, 16)`, returning `none` on `ValueError`. -/
def read_chunk_size (line : Bytes) : Except Unit (Option Int) :=
  if line.contains ';' then .error ()
  else .ok (pyIntHex line)

/-- `httplib.HTTPResponse._safe_read(amt)`: for `amt <= 0` it reads nothing;
otherwise it reads exactly `amt` bytes, or raises `IncompleteRead` carrying
the partial data it could read (everything remaining) when the stream is too
short. -/
def safe_read (amt : Int) (fp : Bytes) : Except Bytes (Bytes × Bytes) :=
  if amt ≤ 0 then .ok ([], fp)
  else if amt.toNat ≤ fp.length then .ok (fp.take amt.toNat, fp.drop amt.toNat)
  else .error fp

/-- Exceptions that can escape `read_chunks`: `httplib.IncompleteRead`
(payload bytes attached to the exception) and the `NameError` from
`_read_chunk_size` on a chunk-extension. -/
inductive FetchError where
  | incompleteRead (pdata : Bytes)
  | nameError
deriving DecidableEq, Repr

/-- The live HTTP response handle: whether the body uses chunked
transfer-encoding, the remaining raw bytes of its stream, and whether the
response has been closed. -/
structure DetailedHTTPResponse where
  chunked : Bool
  fp : Bytes
  closed : Bool
deriving DecidableEq, Repr

theorem readline_join (fp : Bytes) : (readline fp).1 ++ (readline fp).2 = fp := by
  induction fp with
  | nil => rfl
  | cons c rest ih =>
    by_cases h : c = '\n' <;> simp [readline, h, ih]

theorem readline_cons_length (fp line rest : Bytes) (h : readline fp = (line, rest))
    (hne : line ≠ []) : rest.length < fp.length := by
  have hj := readline_join fp
  rw [h] at hj
  subst hj
  simp only [List.length_append]
  cases line with
  | nil => exact absurd rfl hne
  | cons a l => simp

theorem read_chunk_size_nil : read_chunk_size [] = .ok none := rfl

theorem safe_read_ok_length (amt : Int) (fp c r : Bytes)
    (h : safe_read amt fp = .ok (c, r)) : r.length ≤ fp.length := by
  unfold safe_read at h
  split at h
  · cases h; simp
  · split at h
    · cases h; simp
    · cases h

/-- The chunk-reading loop of `read_chunks` (lines 45-54): read a size line,
parse it, stop on a zero size, otherwise read the chunk payload and skip the
trailing CRLF.  Returns the collected chunks together with the unconsumed
stream, or the exception that escaped. -/
def readChunksLoop (fp : Bytes) (chunks : List Bytes) :
    Except FetchError (List Bytes × Bytes) :=
  match h : readline fp with
  | (line, rest) =>
    match hs : read_chunk_size line with
    | .error _ => .error .nameError
    | .ok none => .error (.incompleteRead chunks.flatten)
    | .ok (some chunk_size) =>
      if chunk_size = 0 then .ok (chunks, rest)
      else
        match h2 : safe_read chunk_size rest with
        | .error pdata => .error (.incompleteRead pdata)
        | .ok (chunk, rest2) =>
          match h3 : safe_read 2 rest2 with
          | .error pdata => .error (.incompleteRead pdata)
          | .ok (_, rest3) => readChunksLoop rest3 (chunks ++ [chunk])
termination_by fp.length
decreasing_by
  have hline : line ≠ [] := by
    intro hnil
    rw [hnil, read_chunk_size_nil] at hs
    cases hs
  have l1 : rest.length < fp.length := readline_cons_length fp line rest h hline
  have l2 : rest2.length ≤ rest.length := safe_read_ok_length _ _ _ _ h2
  have l3 : rest3.length ≤ rest2.length := safe_read_ok_length _ _ _ _ h3
  omega

/-- The trailer-skipping loop of `read_chunks` (lines 57-60): read lines and
discard them until an empty read or a bare CRLF line. -/
def skipTrailers (fp : Bytes) : Bytes :=
  match h : readline fp with
  | (line, rest) =>
    if line = [] ∨ line = ['\r', '\n'] then rest
    else skipTrailers rest
termination_by fp.length
decreasing_by
  rename_i hcond
  have hline : line ≠ [] := by
    intro hnil
    exact hcond (Or.inl hnil)
  exact readline_cons_length fp line rest h hline

/-- `DetailedHTTPResponse.read_chunks`.  For a non-chunked response,
`self.read()` is `httplib.HTTPResponse.read()` with no argument, which reads
the whole remaining body to completion and closes the response.  For a
chunked response the loop and trailer skipping run inside `try ... finally:
self.close()`, so the response is closed whether the loop returns or
raises. -/
def DetailedHTTPResponse.read_chunks (self : DetailedHTTPResponse) :
    Except FetchError (List Bytes) × DetailedHTTPResponse :=
  if !self.chunked then
    (.ok [self.fp], { self with fp := [], closed := true })
  else
    match readChunksLoop self.fp [] with
    | .error e => (.error e, { self with closed := true })
    | .ok (chunks, rest) =>
      (.ok chunks, { self with fp := skipTrailers rest, closed := true })

/-- The request identity used as the archive key
(`httparchive.ArchivedHttpRequest`, external collaborator). -/
structure ArchivedHttpRequest where
  command : String
  host : String
  path : String
  request_body : String
deriving DecidableEq, Repr

/-- The fields of a live `httplib.HTTPResponse` consumed when building an
`ArchivedHttpResponse` (version, status, reason, `getheaders()`). -/
structure HTTPResponseData where
  version : Nat
  status : Nat
  reason : String
  headers : List (String × String)
deriving DecidableEq, Repr

/-- The persisted unit (`httparchive.ArchivedHttpResponse`, external
collaborator): protocol version, status, reason, header list and body
chunks. -/
structure ArchivedHttpResponse where
  version : Nat
  status : Nat
  reason : String
  headers : List (String × String)
  response_data : List Bytes
deriving DecidableEq, Repr

/-- `httparchive.ArchivedHttpResponse(version, status, reason, headers,
chunks)` as constructed at lines 163-168. -/
def mkArchivedHttpResponse (response : HTTPResponseData) (response_chunks : List Bytes) :
    ArchivedHttpResponse :=
  { version := response.version, status := response.status,
    reason := response.reason, headers := response.headers,
    response_data := response_chunks }

/-- The `HttpArchive` dict (external collaborator): a mapping from request
to response, modelled as an association list without duplicate keys
observable through `get`/`set`/`contains`. -/
abbrev Archive := List (ArchivedHttpRequest × ArchivedHttpResponse)

/-- `self.http_archive.get(request)` / `self.http_archive[request]`. -/
def Archive.get (a : Archive) (request : ArchivedHttpRequest) :
    Option ArchivedHttpResponse :=
  (a.find? fun p => p.1 == request).map Prod.snd

/-- `request in self.http_archive`. -/
def Archive.containsReq (a : Archive) (request : ArchivedHttpRequest) : Bool :=
  (a.get request).isSome

/-- `self.http_archive[request] = response`: dict assignment, overwriting
any prior entry for that key. -/
def Archive.set (a : Archive) (request : ArchivedHttpRequest)
    (response : ArchivedHttpResponse) : Archive :=
  match a with
  | [] => [(request, response)]
  | p :: rest =>
    if p.1 = request then (request, response) :: rest
    else p :: Archive.set rest request response

theorem Archive.get_set_self (a : Archive) (r : ArchivedHttpRequest)
    (v : ArchivedHttpResponse) : (a.set r v).get r = some v := by
  induction a with
  | nil => simp [Archive.set, Archive.get, List.find?]
  | cons p rest ih =>
    by_cases h : p.1 = r
    · simp only [Archive.set, if_pos h, Archive.get]
      rw [List.find?_cons_of_pos _ (by simp)]
      rfl
    · simp only [Archive.set, if_neg h, Archive.get]
      rw [List.find?_cons_of_neg _ (by simp [h])]
      exact ih

/-- Observable interactions with the external collaborators, in program
order: a live network fetch, a `cache_misses.record_request(...)` call, and
each archive operation. -/
inductive Event where
  | liveFetch (request : ArchivedHttpRequest)
  | trackerRecord (request : ArchivedHttpRequest)
      (is_record_mode : Bool) (is_cache_miss : Bool)
  | archiveContains (request : ArchivedHttpRequest)
  | archiveGet (request : ArchivedHttpRequest)
  | archiveSet (request : ArchivedHttpRequest)
  | archiveFindClosest (request : ArchivedHttpRequest)
  | archiveDiff (request : ArchivedHttpRequest)
deriving DecidableEq, Repr

/-- `cache_misses.record_request` calls, for counting tracker telemetry. -/
def Event.isTrackerRecord : Event → Bool
  | .trackerRecord _ _ _ => true
  | _ => false

/-- Configuration of `RecordHttpArchiveFetch` (`cache_misses` is whether a
tracker object was supplied).  The shared `http_archive` is threaded
explicitly through `call`, because in the source the same archive object is
aliased by the record and replay strategies of one
`ControllableHttpArchiveFetch`. -/
structure RecordHttpArchiveFetch where
  use_deterministic_script : Bool
  cache_misses : Bool
deriving DecidableEq, Repr

/-- `RecordHttpArchiveFetch.__call__(request, request_headers)`.
`real_http_fetch` abstracts `RealHttpFetch` (returns the live response data
and chunk list, or `none` for the `(None, None)` failure signal);
`inject_deterministic_script` abstracts the injector of
`httparchive.ArchivedHttpResponse` (`none` models
`InjectionFailedException`, which the source catches and logs, keeping the
unmodified response).  Returns the result, the archive after the call and
the event trace. -/
def RecordHttpArchiveFetch.call
    (real_http_fetch : ArchivedHttpRequest → Headers → Option (HTTPResponseData × List Bytes))
    (inject_deterministic_script : ArchivedHttpResponse → Option ArchivedHttpResponse)
    (self : RecordHttpArchiveFetch) (http_archive : Archive)
    (request : ArchivedHttpRequest) (request_headers : Headers) :
    Option ArchivedHttpResponse × Archive × List Event :=
  let ev0 : List Event :=
    if self.cache_misses then [.trackerRecord request true false] else []
  if http_archive.containsReq request then
    (http_archive.get request, http_archive,
     ev0 ++ [.archiveContains request, .archiveGet request])
  else
    match real_http_fetch request request_headers with
    | none =>
      (none, http_archive, ev0 ++ [.archiveContains request, .liveFetch request])
    | some (response, response_chunks) =>
      let archived_http_response := mkArchivedHttpResponse response response_chunks
      let stored :=
        if self.use_deterministic_script then
          match inject_deterministic_script archived_http_response with
          | some injected => injected
          | none => archived_http_response
        else archived_http_response
      (some stored, http_archive.set request stored,
       ev0 ++ [.archiveContains request, .liveFetch request, .archiveSet request])

/-- Configuration of `ReplayHttpArchiveFetch`. -/
structure ReplayHttpArchiveFetch where
  use_diff_on_unknown_requests : Bool
  cache_misses : Bool
  use_closest_match : Bool
deriving DecidableEq, Repr

/-- `ReplayHttpArchiveFetch.__call__(request, request_headers)`.
`find_closest_request` and `diff` abstract the archive's closest-match and
diff queries (external).  Returns the result, the archive after the call
and the event trace. -/
def ReplayHttpArchiveFetch.call
    (find_closest_request : Archive → ArchivedHttpRequest → Option ArchivedHttpRequest)
    (diff : Archive → ArchivedHttpRequest → String)
    (self : ReplayHttpArchiveFetch) (http_archive : Archive)
    (request : ArchivedHttpRequest) (request_headers : Headers) :
    Option ArchivedHttpResponse × Archive × List Event :=
  let response := http_archive.get request
  let ev1 : List Event := [.archiveGet request]
  let closest :=
    if self.use_closest_match && response.isNone then
      match find_closest_request http_archive request with
      | some closest_request =>
        (http_archive.get closest_request,
         ev1 ++ [.archiveFindClosest request, .archiveGet closest_request])
      | none => (response, ev1 ++ [.archiveFindClosest request])
    else (response, ev1)
  let response2 := closest.1
  let ev2 := closest.2
  let ev3 :=
    if self.cache_misses then
      ev2 ++ [.trackerRecord request false response2.isNone]
    else ev2
  let ev4 :=
    if response2.isNone && self.use_diff_on_unknown_requests then
      ev3 ++ [.archiveDiff request]
    else ev3
  (response2, http_archive, ev4)

/-- Which strategy `self.fetch` currently references. -/
inductive FetchMode where
  | record
  | replay
deriving DecidableEq, Repr

/-- `ControllableHttpArchiveFetch`: the two strategies (sharing one
`http_archive`) and the `self.fetch` reference. -/
structure ControllableHttpArchiveFetch where
  http_archive : Archive
  record_fetch : RecordHttpArchiveFetch
  replay_fetch : ReplayHttpArchiveFetch
  fetch : FetchMode
deriving DecidableEq, Repr

/-- `ControllableHttpArchiveFetch.__init__`: build both strategies over the
shared archive and pick the initial mode from `use_record_mode`. -/
def ControllableHttpArchiveFetch.init (http_archive : Archive)
    (use_deterministic_script use_diff_on_unknown_requests use_record_mode
     cache_misses use_closest_match : Bool) : ControllableHttpArchiveFetch :=
  { http_archive,
    record_fetch := { use_deterministic_script, cache_misses },
    replay_fetch := { use_diff_on_unknown_requests, cache_misses, use_closest_match },
    fetch := if use_record_mode then .record else .replay }

/-- `SetRecordMode`: `self.fetch = self.record_fetch`. -/
def ControllableHttpArchiveFetch.SetRecordMode
    (self : ControllableHttpArchiveFetch) : ControllableHttpArchiveFetch :=
  { self with fetch := .record }

/-- `SetReplayMode`: `self.fetch = self.replay_fetch`. -/
def ControllableHttpArchiveFetch.SetReplayMode
    (self : ControllableHttpArchiveFetch) : ControllableHttpArchiveFetch :=
  { self with fetch := .replay }

/-- `ControllableHttpArchiveFetch.__call__`: forward to whichever strategy
`self.fetch` references, threading the shared archive. -/
def ControllableHttpArchiveFetch.call
    (real_http_fetch : ArchivedHttpRequest → Headers → Option (HTTPResponseData × List Bytes))
    (inject_deterministic_script : ArchivedHttpResponse → Option ArchivedHttpResponse)
    (find_closest_request : Archive → ArchivedHttpRequest → Option ArchivedHttpRequest)
    (diff : Archive → ArchivedHttpRequest → String)
    (self : ControllableHttpArchiveFetch)
    (request : ArchivedHttpRequest) (request_headers : Headers) :
    Option ArchivedHttpResponse × ControllableHttpArchiveFetch × List Event :=
  match self.fetch with
  | .record =>
    let r := self.record_fetch.call real_http_fetch inject_deterministic_script
      self.http_archive request request_headers
    (r.1, { self with http_archive := r.2.1 }, r.2.2)
  | .replay =>
    let r := self.replay_fetch.call find_closest_request diff
      self.http_archive request request_headers
    (r.1, { self with http_archive := r.2.1 }, r.2.2)

/-- `RealHttpFetch`: holds the injected resolver. -/
structure RealHttpFetch where
  real_dns_lookup : String → Option String

/-- `RealHttpFetch.__call__(request, headers)`.  `getresponse` abstracts
opening a `DetailedHTTPConnection` to the resolved address, issuing the
request and retrieving the response handle; `none` models an exception
during connect/send/receive, caught by the `except` clause.  A falsy
resolver result (`None` or an empty string) yields `(None, None)`.  An
exception escaping `read_chunks` is likewise caught and converted to
`(None, None)`. -/
def RealHttpFetch.call
    (getresponse : String → ArchivedHttpRequest → Headers → Option DetailedHTTPResponse)
    (self : RealHttpFetch) (request : ArchivedHttpRequest) (headers : Headers) :
    Option (DetailedHTTPResponse × List Bytes) :=
  match self.real_dns_lookup request.host with
  | none => none
  | some host_ip =>
    if host_ip = "" then none
    else
      match getresponse host_ip request headers with
      | none => none
      | some response =>
        match response.read_chunks with
        | (.ok chunks, response2) => some (response2, chunks)
        | (.error _, _) => none

theorem readline_spec (s r : Bytes) (hns : '\n' ∉ s) :
    readline (s ++ '\n' :: r) = (s ++ ['\n'], r) := by
  induction s with
  | nil => simp [readline]
  | cons c t ih =>
    have hc : c ≠ '\n' := fun hc => hns (by rw [hc]; exact List.mem_cons_self _ _)
    have ht : '\n' ∉ t := fun hm => hns (List.mem_cons_of_mem c hm)
    simp [readline, hc, ih ht]

theorem safe_read_exact (c r : Bytes) :
    safe_read (c.length : Int) (c ++ r) = .ok (c, r) := by
  unfold safe_read
  by_cases h : (c.length : Int) ≤ 0
  · have hc : c = [] := by
      have : c.length = 0 := by exact_mod_cast Int.le_antisymm h (by positivity)
      exact List.length_eq_zero.mp this
    subst hc; simp
  · rw [if_neg h, if_pos]
    · have ht : ((c.length : Int)).toNat = c.length := Int.toNat_natCast _
      rw [ht, List.take_left, List.drop_left]
    · have ht : ((c.length : Int)).toNat = c.length := Int.toNat_natCast _
      rw [ht]
      simp

theorem readChunksLoop_step (fp line rest : Bytes) (n : Int) (chunk rest2 x rest3 : Bytes)
    (acc : List Bytes)
    (h : readline fp = (line, rest))
    (hs : read_chunk_size line = .ok (some n))
    (hn : n ≠ 0)
    (h2 : safe_read n rest = .ok (chunk, rest2))
    (h3 : safe_read 2 rest2 = .ok (x, rest3)) :
    readChunksLoop fp acc = readChunksLoop rest3 (acc ++ [chunk]) := by
  rw [readChunksLoop]
  split
  next line' rest' heq =>
    rw [h] at heq
    injection heq with e1 e2
    subst e1; subst e2
    split
    · next herr => rw [hs] at herr; cases herr
    · next hnone => rw [hs] at hnone; cases hnone
    · next m hsome =>
      rw [hs] at hsome
      injection hsome with e3
      injection e3 with e4
      subst e4
      rw [if_neg hn]
      split
      · next herr => rw [h2] at herr; cases herr
      · next c r2 hok =>
        rw [h2] at hok
        injection hok with e5
        injection e5 with e6 e7
        subst e6; subst e7
        split
        · next herr => rw [h3] at herr; cases herr
        · next y r3 hok2 =>
          rw [h3] at hok2
          injection hok2 with e8
          injection e8 with e9 e10
          subst e10
          rfl

theorem readChunksLoop_zero (fp line rest : Bytes) (acc : List Bytes)
    (h : readline fp = (line, rest))
    (hs : read_chunk_size line = .ok (some 0)) :
    readChunksLoop fp acc = .ok (acc, rest) := by
  rw [readChunksLoop]
  split
  next line' rest' heq =>
    rw [h] at heq
    injection heq with e1 e2
    subst e1; subst e2
    split
    · next herr => rw [hs] at herr; cases herr
    · next hnone => rw [hs] at hnone; cases hnone
    · next m hsome =>
      rw [hs] at hsome
      injection hsome with e3
      injection e3 with e4
      subst e4
      rw [if_pos rfl]

theorem readChunksLoop_badline (fp line rest : Bytes) (acc : List Bytes)
    (h : readline fp = (line, rest))
    (hs : read_chunk_size line = .ok none) :
    readChunksLoop fp acc = .error (.incompleteRead acc.flatten) := by
  rw [readChunksLoop]
  split
  next line' rest' heq =>
    rw [h] at heq
    injection heq with e1 e2
    subst e1; subst e2
    split
    · next herr => rw [hs] at herr; cases herr
    · next hnone => rfl
    · next m hsome => rw [hs] at hsome; cases hsome

theorem readChunksLoop_extension (fp line rest : Bytes) (acc : List Bytes)
    (h : readline fp = (line, rest))
    (hs : read_chunk_size line = .error ()) :
    readChunksLoop fp acc = .error .nameError := by
  rw [readChunksLoop]
  split
  next line' rest' heq =>
    rw [h] at heq
    injection heq with e1 e2
    subst e1; subst e2
    split
    · next herr => rfl
    · next hnone => rw [hs] at hnone; cases hnone
    · next m hsome => rw [hs] at hsome; cases hsome

/-- A size line as the claims describe it: a full line (`readline` reads
exactly this text), no `;`-delimited extension, and `int(line, 16)` parses
it as the value `n`. -/
def ValidSizeLine (line : Bytes) (n : Nat) : Prop :=
  (∃ s, line = s ++ ['\n'] ∧ '\n' ∉ s) ∧
  line.contains ';' = false ∧
  pyIntHex line = some (n : Int)

/-- One chunk on the wire: its size line, the payload, the trailing CRLF. -/
def encodeFrame (p : Bytes × Bytes) : Bytes :=
  p.1 ++ (p.2 ++ ['\r', '\n'])

/-- The wire form of a sequence of framed chunks. -/
def encodeFrames (frames : List (Bytes × Bytes)) : Bytes :=
  (frames.map encodeFrame).flatten

theorem readChunksLoop_encodeFrames (frames : List (Bytes × Bytes)) (rest : Bytes)
    (acc : List Bytes)
    (hf : ∀ p ∈ frames, ValidSizeLine p.1 p.2.length ∧ p.2 ≠ []) :
    readChunksLoop (encodeFrames frames ++ rest) acc
      = readChunksLoop rest (acc ++ frames.map Prod.snd) := by
  induction frames generalizing acc with
  | nil => simp [encodeFrames]
  | cons p fs ih =>
    obtain ⟨⟨⟨s, hs, hns⟩, hsemi, hparse⟩, hne⟩ := hf p (List.mem_cons_self p fs)
    have hstream : encodeFrames (p :: fs) ++ rest
        = s ++ '\n' :: (p.2 ++ '\r' :: '\n' :: (encodeFrames fs ++ rest)) := by
      simp [encodeFrames, encodeFrame, hs]
    have hrl := readline_spec s (p.2 ++ '\r' :: '\n' :: (encodeFrames fs ++ rest)) hns
    have hrcs : read_chunk_size (s ++ ['\n']) = .ok (some (p.2.length : Int)) := by
      rw [← hs]
      unfold read_chunk_size
      rw [if_neg]
      · rw [hparse]
      · rw [hsemi]
        exact Bool.false_ne_true
    have hn0 : (p.2.length : Int) ≠ 0 := by
      have : p.2.length ≠ 0 := fun h0 => hne (List.length_eq_zero.mp h0)
      exact_mod_cast this
    have hsr1 := safe_read_exact p.2 ('\r' :: '\n' :: (encodeFrames fs ++ rest))
    have hsr2 : safe_read 2 ('\r' :: '\n' :: (encodeFrames fs ++ rest))
        = .ok (['\r', '\n'], encodeFrames fs ++ rest) := by
      have := safe_read_exact ['\r', '\n'] (encodeFrames fs ++ rest)
      simpa using this
    rw [hstream]
    rw [readChunksLoop_step
      (s ++ '\n' :: (p.2 ++ '\r' :: '\n' :: (encodeFrames fs ++ rest)))
      (s ++ ['\n']) (p.2 ++ '\r' :: '\n' :: (encodeFrames fs ++ rest))
      (p.2.length : Int) p.2 ('\r' :: '\n' :: (encodeFrames fs ++ rest))
      ['\r', '\n'] (encodeFrames fs ++ rest) acc hrl hrcs hn0 hsr1 hsr2]
    rw [ih (acc ++ [p.2]) (fun q hq => hf q (List.mem_cons_of_mem p hq))]
    simp

theorem read_chunks_chunked (fp : Bytes) :
    DetailedHTTPResponse.read_chunks { chunked := true, fp := fp, closed := false }
      = (match readChunksLoop fp [] with
         | .error e => (.error e, { chunked := true, fp := fp, closed := true })
         | .ok (chunks, rest) =>
           (.ok chunks, { chunked := true, fp := skipTrailers rest, closed := true })) := rfl

/-- C2: for a chunked body made of frames `[c1..cn]`, each a valid
hexadecimal size line followed by the payload and a CRLF, terminated by a
zero-size line, `read_chunks` returns exactly `[c1..cn]` with the framing
removed and the payload bytes unaltered, whatever trailer bytes follow the
zero chunk. -/
theorem read_chunks_chunked_exact (frames : List (Bytes × Bytes))
    (zeroLine trailing : Bytes)
    (hf : ∀ p ∈ frames, ValidSizeLine p.1 p.2.length ∧ p.2 ≠ [])
    (hzero : ValidSizeLine zeroLine 0) :
    (DetailedHTTPResponse.read_chunks
        { chunked := true, fp := encodeFrames frames ++ (zeroLine ++ trailing),
          closed := false }).1
      = .ok (frames.map Prod.snd) := by
  obtain ⟨⟨s0, hs0, hns0⟩, hsemi0, hparse0⟩ := hzero
  have hrcs0 : read_chunk_size (s0 ++ ['\n']) = .ok (some 0) := by
    rw [← hs0]
    unfold read_chunk_size
    rw [if_neg]
    · rw [hparse0]
      norm_num
    · rw [hsemi0]
      exact Bool.false_ne_true
  have h1 : encodeFrames frames ++ (zeroLine ++ trailing)
      = encodeFrames frames ++ (s0 ++ '\n' :: trailing) := by simp [hs0]
  have hzstep : readChunksLoop (s0 ++ '\n' :: trailing) ([] ++ frames.map Prod.snd)
      = .ok ([] ++ frames.map Prod.snd, trailing) :=
    readChunksLoop_zero _ (s0 ++ ['\n']) trailing _ (readline_spec s0 trailing hns0) hrcs0
  rw [read_chunks_chunked, h1,
    readChunksLoop_encodeFrames frames (s0 ++ '\n' :: trailing) [] hf, hzstep]
  simp

/-- Witness for C2: two chunks `"ab"`, `"c"` with size lines `"2\r\n"`,
`"1\r\n"`, a `"0\r\n"` terminator and a trailer section. -/
theorem read_chunks_chunked_exact_witness :
    (∀ p ∈ ([(("2\r\n").toList, ("ab").toList), (("1\r\n").toList, ("c").toList)] :
        List (Bytes × Bytes)), ValidSizeLine p.1 p.2.length ∧ p.2 ≠ []) ∧
    (DetailedHTTPResponse.read_chunks
        { chunked := true,
          fp := encodeFrames
                  [(("2\r\n").toList, ("ab").toList), (("1\r\n").toList, ("c").toList)]
                ++ (("0\r\n").toList ++ ("X: y\r\n\r\n").toList),
          closed := false }).1
      = .ok [("ab").toList, ("c").toList] := by
  have hf : ∀ p ∈ ([(("2\r\n").toList, ("ab").toList), (("1\r\n").toList, ("c").toList)] :
      List (Bytes × Bytes)), ValidSizeLine p.1 p.2.length ∧ p.2 ≠ [] := by
    intro p hp
    rcases List.mem_cons.mp hp with h | hp2
    · subst h
      exact ⟨⟨⟨['2', '\r'], by decide, by decide⟩, by decide, by decide⟩, by decide⟩
    · rcases List.mem_cons.mp hp2 with h | hp3
      · subst h
        exact ⟨⟨⟨['1', '\r'], by decide, by decide⟩, by decide, by decide⟩, by decide⟩
      · exact absurd hp3 (List.not_mem_nil p)
  exact ⟨hf, read_chunks_chunked_exact _ _ _ hf
    ⟨⟨['0', '\r'], by decide, by decide⟩, by decide, by decide⟩⟩

/-- C3: the claim says a `;`-delimited chunk-extension is stripped before
hex parsing and never makes the fetch fail.  The code instead raises a
`NameError` whenever a `;` is present (`line[:extention_pos]` uses an
undefined name; the assigned variable is `chunk_extensions_pos`, and the
line's own comment says "strip chunk-extensions"), so `read_chunks` aborts
on any chunk-extension: evaluated here on the size line `"5;name=value"`
and on a stream whose first size line carries an extension. -/
theorem read_chunk_size_extension_nameerror :
    read_chunk_size (("5;name=value\r\n").toList) = .error () ∧
    (DetailedHTTPResponse.read_chunks
        { chunked := true, fp := ("5;ext=x\r\nHELLO\r\n0\r\n\r\n").toList,
          closed := false }).1
      = .error .nameError := by
  constructor
  · decide
  · rw [read_chunks_chunked]
    rw [readChunksLoop_extension (("5;ext=x\r\nHELLO\r\n0\r\n\r\n").toList)
      (("5;ext=x\r\n").toList) (("HELLO\r\n0\r\n\r\n").toList) [] (by decide) (by decide)]

/-- C4: a chunk-size line that does not parse as hexadecimal makes
`read_chunks` raise `IncompleteRead` carrying the bytes of every chunk
collected before the malformed line (the source joins them into one byte
string), and the failure is soft at the fetch level: `RealHttpFetch`
catches it and returns its null signal instead of propagating. -/
theorem read_chunks_malformed_partial (frames : List (Bytes × Bytes)) (rest : Bytes)
    (hf : ∀ p ∈ frames, ValidSizeLine p.1 p.2.length ∧ p.2 ≠ [])
    (hbad : read_chunk_size (readline rest).1 = .ok none) :
    (DetailedHTTPResponse.read_chunks
        { chunked := true, fp := encodeFrames frames ++ rest, closed := false }).1
      = .error (.incompleteRead (frames.map Prod.snd).flatten) ∧
    ∀ (self : RealHttpFetch) (request : ArchivedHttpRequest) (headers : Headers)
      (ip : String),
      self.real_dns_lookup request.host = some ip → ip ≠ "" →
      RealHttpFetch.call
        (fun _ _ _ =>
          some { chunked := true, fp := encodeFrames frames ++ rest, closed := false })
        self request headers = none := by
  have hloop : readChunksLoop (encodeFrames frames ++ rest) []
      = .error (.incompleteRead (frames.map Prod.snd).flatten) := by
    rw [readChunksLoop_encodeFrames frames rest [] hf]
    rw [readChunksLoop_badline rest (readline rest).1 (readline rest).2 _ rfl hbad]
    simp
  have hfull : DetailedHTTPResponse.read_chunks
      { chunked := true, fp := encodeFrames frames ++ rest, closed := false }
      = (.error (.incompleteRead (frames.map Prod.snd).flatten),
         { chunked := true, fp := encodeFrames frames ++ rest, closed := true }) := by
    rw [read_chunks_chunked, hloop]
  constructor
  · rw [hfull]
  · intro self request headers ip hdns hip
    simp only [RealHttpFetch.call, hdns, if_neg hip, hfull]

/-- Witness for C4: one good chunk `"ab"` then the unparsable size line
`"zz\r\n"`; the failure carries `"ab"` and the fetch returns the null
signal. -/
theorem read_chunks_malformed_partial_witness :
    (DetailedHTTPResponse.read_chunks
        { chunked := true,
          fp := encodeFrames [(("2\r\n").toList, ("ab").toList)] ++ ("zz\r\n5\r\n").toList,
          closed := false }).1
      = .error (.incompleteRead ("ab").toList) ∧
    RealHttpFetch.call
      (fun _ _ _ =>
        some { chunked := true,
               fp := encodeFrames [(("2\r\n").toList, ("ab").toList)] ++ ("zz\r\n5\r\n").toList,
               closed := false })
      { real_dns_lookup := fun _ => some "127.0.0.1" }
      { command := "GET", host := "example.com", path := "/", request_body := "" }
      [] = none := by
  have hf : ∀ p ∈ ([(("2\r\n").toList, ("ab").toList)] : List (Bytes × Bytes)),
      ValidSizeLine p.1 p.2.length ∧ p.2 ≠ [] := by
    intro p hp
    rcases List.mem_cons.mp hp with h | hp2
    · subst h
      exact ⟨⟨⟨['2', '\r'], by decide, by decide⟩, by decide, by decide⟩, by decide⟩
    · exact absurd hp2 (List.not_mem_nil p)
  have h := read_chunks_malformed_partial [(("2\r\n").toList, ("ab").toList)]
    (("zz\r\n5\r\n").toList) hf (by decide)
  exact ⟨h.1, h.2 _ _ _ "127.0.0.1" rfl (by decide)⟩

/-- C5: on every invocation of `read_chunks`, chunked or not, and on every
exit path (normal return or raised failure), the response is closed before
the call returns. -/
theorem read_chunks_always_closes (self : DetailedHTTPResponse) :
    ((DetailedHTTPResponse.read_chunks self).2).closed = true := by
  unfold DetailedHTTPResponse.read_chunks
  split
  · rfl
  · split <;> rfl

/-- C1: a request already present in the archive is answered from the
archive: the call returns the existing entry, leaves the archive mapping
unchanged, and never invokes the live fetcher. -/
theorem record_fetch_dedup
    (real_http_fetch : ArchivedHttpRequest → Headers → Option (HTTPResponseData × List Bytes))
    (inject : ArchivedHttpResponse → Option ArchivedHttpResponse)
    (self : RecordHttpArchiveFetch) (http_archive : Archive)
    (request : ArchivedHttpRequest) (request_headers : Headers)
    (h : http_archive.containsReq request = true) :
    (RecordHttpArchiveFetch.call real_http_fetch inject self http_archive
        request request_headers).1 = http_archive.get request ∧
    (RecordHttpArchiveFetch.call real_http_fetch inject self http_archive
        request request_headers).2.1 = http_archive ∧
    ∀ r, Event.liveFetch r ∉
      (RecordHttpArchiveFetch.call real_http_fetch inject self http_archive
        request request_headers).2.2 := by
  refine ⟨?_, ?_, ?_⟩
  · simp [RecordHttpArchiveFetch.call, h]
  · simp [RecordHttpArchiveFetch.call, h]
  · intro r
    simp only [RecordHttpArchiveFetch.call, h]
    by_cases hc : self.cache_misses <;> simp [hc]

/-- C6: on a genuine miss whose live fetch fails, the call returns the null
signal and the archive mapping is identical before and after. -/
theorem record_fetch_live_failure
    (real_http_fetch : ArchivedHttpRequest → Headers → Option (HTTPResponseData × List Bytes))
    (inject : ArchivedHttpResponse → Option ArchivedHttpResponse)
    (self : RecordHttpArchiveFetch) (http_archive : Archive)
    (request : ArchivedHttpRequest) (request_headers : Headers)
    (hmiss : http_archive.containsReq request = false)
    (hfail : real_http_fetch request request_headers = none) :
    (RecordHttpArchiveFetch.call real_http_fetch inject self http_archive
        request request_headers).1 = none ∧
    (RecordHttpArchiveFetch.call real_http_fetch inject self http_archive
        request request_headers).2.1 = http_archive := by
  constructor <;> simp [RecordHttpArchiveFetch.call, hmiss, hfail]

/-- C7: with deterministic-script injection enabled, an injection failure
(`InjectionFailedException`) is caught: the unmodified archived response is
still stored under the request and returned. -/
theorem record_fetch_injection_failure_still_stores
    (real_http_fetch : ArchivedHttpRequest → Headers → Option (HTTPResponseData × List Bytes))
    (inject : ArchivedHttpResponse → Option ArchivedHttpResponse)
    (self : RecordHttpArchiveFetch) (http_archive : Archive)
    (request : ArchivedHttpRequest) (request_headers : Headers)
    (respData : HTTPResponseData) (chunks : List Bytes)
    (hmiss : http_archive.containsReq request = false)
    (hlive : real_http_fetch request request_headers = some (respData, chunks))
    (hdet : self.use_deterministic_script = true)
    (hinj : inject (mkArchivedHttpResponse respData chunks) = none) :
    (RecordHttpArchiveFetch.call real_http_fetch inject self http_archive
        request request_headers).1 = some (mkArchivedHttpResponse respData chunks) ∧
    (RecordHttpArchiveFetch.call real_http_fetch inject self http_archive
        request request_headers).2.1
      = http_archive.set request (mkArchivedHttpResponse respData chunks) := by
  constructor <;> simp [RecordHttpArchiveFetch.call, hmiss, hlive, hdet, hinj]

/-- A record-mode call that returns a response leaves that response in the
archive under the request (either it was already there, or it was just
stored). -/
theorem record_call_result_in_archive
    (real_http_fetch : ArchivedHttpRequest → Headers → Option (HTTPResponseData × List Bytes))
    (inject : ArchivedHttpResponse → Option ArchivedHttpResponse)
    (self : RecordHttpArchiveFetch) (http_archive : Archive)
    (request : ArchivedHttpRequest) (request_headers : Headers)
    (res : ArchivedHttpResponse)
    (h : (RecordHttpArchiveFetch.call real_http_fetch inject self http_archive
        request request_headers).1 = some res) :
    ((RecordHttpArchiveFetch.call real_http_fetch inject self http_archive
        request request_headers).2.1).get request = some res := by
  by_cases hc : http_archive.containsReq request = true
  · simp only [RecordHttpArchiveFetch.call, hc] at h ⊢
    simpa using h
  · have hc' : http_archive.containsReq request = false := by
      exact Bool.not_eq_true _ ▸ (Bool.eq_false_iff.mpr hc)
    cases hlive : real_http_fetch request request_headers with
    | none => simp [RecordHttpArchiveFetch.call, hc', hlive] at h
    | some pr =>
      simp only [RecordHttpArchiveFetch.call, hc', hlive] at h ⊢
      simp only [Bool.false_eq_true, if_false] at h ⊢
      have hres := h
      simp at hres
      rw [Archive.get_set_self]
      rw [hres]

/-- A replay-mode call on a request with an exact archive entry returns that
entry, whatever the closest-match/diff/tracker configuration. -/
theorem replay_call_exact_hit
    (find_closest_request : Archive → ArchivedHttpRequest → Option ArchivedHttpRequest)
    (diff : Archive → ArchivedHttpRequest → String)
    (self : ReplayHttpArchiveFetch) (http_archive : Archive)
    (request : ArchivedHttpRequest) (request_headers : Headers)
    (res : ArchivedHttpResponse)
    (h : http_archive.get request = some res) :
    (ReplayHttpArchiveFetch.call find_closest_request diff self http_archive
        request request_headers).1 = some res := by
  simp [ReplayHttpArchiveFetch.call, h]

/-- C8: in replay mode with a tracker configured, exactly one
`record_request` call is made per fetch, with `is_record_mode = false` and
`is_cache_miss` true iff no response (exact or, when enabled, closest) was
ultimately found. -/
theorem replay_fetch_tracker_once
    (find_closest_request : Archive → ArchivedHttpRequest → Option ArchivedHttpRequest)
    (diff : Archive → ArchivedHttpRequest → String)
    (self : ReplayHttpArchiveFetch) (http_archive : Archive)
    (request : ArchivedHttpRequest) (request_headers : Headers)
    (h : self.cache_misses = true) :
    ((ReplayHttpArchiveFetch.call find_closest_request diff self http_archive
        request request_headers).2.2).filter Event.isTrackerRecord
      = [Event.trackerRecord request false
          ((ReplayHttpArchiveFetch.call find_closest_request diff self http_archive
            request request_headers).1).isNone] := by
  simp only [ReplayHttpArchiveFetch.call, h]
  repeat' split
  all_goals simp_all [Event.isTrackerRecord, List.filter]

/-- C10: a replay-mode fetch never mutates the archive: the mapping after
the call is the one before it (misses included), and the event trace holds
no archive write, no live fetch and no membership test — only
get/find-closest/diff reads plus tracker telemetry. -/
theorem replay_fetch_never_mutates
    (find_closest_request : Archive → ArchivedHttpRequest → Option ArchivedHttpRequest)
    (diff : Archive → ArchivedHttpRequest → String)
    (self : ReplayHttpArchiveFetch) (http_archive : Archive)
    (request : ArchivedHttpRequest) (request_headers : Headers) :
    (ReplayHttpArchiveFetch.call find_closest_request diff self http_archive
        request request_headers).2.1 = http_archive ∧
    ∀ r, Event.archiveSet r ∉
        (ReplayHttpArchiveFetch.call find_closest_request diff self http_archive
          request request_headers).2.2 ∧
      Event.liveFetch r ∉
        (ReplayHttpArchiveFetch.call find_closest_request diff self http_archive
          request request_headers).2.2 ∧
      Event.archiveContains r ∉
        (ReplayHttpArchiveFetch.call find_closest_request diff self http_archive
          request request_headers).2.2 := by
  refine ⟨rfl, ?_⟩
  intro r
  refine ⟨?_, ?_, ?_⟩ <;>
  · simp only [ReplayHttpArchiveFetch.call]
    repeat' split
    all_goals simp

/-- C9: with a `ControllableHttpArchiveFetch` in record mode, recording `R`
(the record-mode call returns `some res`), then `SetReplayMode()`, then
fetching `R` routes to the replay strategy and returns exactly the recorded
response `res` — same status, reason, headers and body chunks. -/
theorem controllable_record_then_replay
    (real_http_fetch : ArchivedHttpRequest → Headers → Option (HTTPResponseData × List Bytes))
    (inject : ArchivedHttpResponse → Option ArchivedHttpResponse)
    (find_closest_request : Archive → ArchivedHttpRequest → Option ArchivedHttpRequest)
    (diff : Archive → ArchivedHttpRequest → String)
    (c : ControllableHttpArchiveFetch) (request : ArchivedHttpRequest)
    (h1 h2 : Headers) (res : ArchivedHttpResponse)
    (hmode : c.fetch = .record)
    (hrec : (ControllableHttpArchiveFetch.call real_http_fetch inject
        find_closest_request diff c request h1).1 = some res) :
    (((ControllableHttpArchiveFetch.call real_http_fetch inject
        find_closest_request diff c request h1).2.1).SetReplayMode).fetch = .replay ∧
    (ControllableHttpArchiveFetch.call real_http_fetch inject
        find_closest_request diff
        (((ControllableHttpArchiveFetch.call real_http_fetch inject
            find_closest_request diff c request h1).2.1).SetReplayMode)
        request h2).1 = some res := by
  have hrec' : (RecordHttpArchiveFetch.call real_http_fetch inject c.record_fetch
      c.http_archive request h1).1 = some res := by
    simp only [ControllableHttpArchiveFetch.call, hmode] at hrec
    exact hrec
  have harch := record_call_result_in_archive real_http_fetch inject c.record_fetch
    c.http_archive request h1 res hrec'
  constructor
  · rfl
  · simp only [ControllableHttpArchiveFetch.call, ControllableHttpArchiveFetch.SetReplayMode,
      hmode]
    exact replay_call_exact_hit find_closest_request diff c.replay_fetch _ request h2 res harch

/-- A concrete request used by the witnesses. -/
def wReq : ArchivedHttpRequest :=
  { command := "GET", host := "example.com", path := "/", request_body := "" }

/-- A concrete archived response used by the witnesses. -/
def wResp : ArchivedHttpResponse :=
  { version := 11, status := 200, reason := "OK",
    headers := [("Content-Type", "text/html")], response_data := [("hello").toList] }

/-- A concrete live response used by the witnesses. -/
def wLive : HTTPResponseData :=
  { version := 11, status := 200, reason := "OK", headers := [("a", "b")] }

/-- Concrete live body chunks used by the witnesses. -/
def wChunks : List Bytes := [("hi").toList]

/-- Witness for C1: a one-entry archive answers the repeated request. -/
theorem record_fetch_dedup_witness :
    Archive.containsReq [(wReq, wResp)] wReq = true ∧
    ((RecordHttpArchiveFetch.call (fun _ _ => none) (fun _ => none)
        { use_deterministic_script := false, cache_misses := true }
        [(wReq, wResp)] wReq []).1 = Archive.get [(wReq, wResp)] wReq ∧
      (RecordHttpArchiveFetch.call (fun _ _ => none) (fun _ => none)
        { use_deterministic_script := false, cache_misses := true }
        [(wReq, wResp)] wReq []).2.1 = [(wReq, wResp)] ∧
      ∀ r, Event.liveFetch r ∉
        (RecordHttpArchiveFetch.call (fun _ _ => none) (fun _ => none)
          { use_deterministic_script := false, cache_misses := true }
          [(wReq, wResp)] wReq []).2.2) := by
  have hc : Archive.containsReq [(wReq, wResp)] wReq = true := by decide
  exact ⟨hc, record_fetch_dedup (fun _ _ => none) (fun _ => none)
    { use_deterministic_script := false, cache_misses := true } [(wReq, wResp)] wReq [] hc⟩

/-- Witness for C6: empty archive, live fetcher that always fails. -/
theorem record_fetch_live_failure_witness :
    Archive.containsReq [] wReq = false ∧
    (RecordHttpArchiveFetch.call (fun _ _ => none) (fun _ => none)
        { use_deterministic_script := false, cache_misses := false } [] wReq []).1 = none ∧
    (RecordHttpArchiveFetch.call (fun _ _ => none) (fun _ => none)
        { use_deterministic_script := false, cache_misses := false } [] wReq []).2.1 = [] := by
  have hm : Archive.containsReq [] wReq = false := rfl
  have h := record_fetch_live_failure (fun _ _ => none) (fun _ => none)
    { use_deterministic_script := false, cache_misses := false } [] wReq [] hm rfl
  exact ⟨hm, h.1, h.2⟩

/-- Witness for C7: injection always fails, response is stored anyway. -/
theorem record_fetch_injection_failure_witness :
    (RecordHttpArchiveFetch.call (fun _ _ => some (wLive, wChunks)) (fun _ => none)
        { use_deterministic_script := true, cache_misses := false } [] wReq []).1
      = some (mkArchivedHttpResponse wLive wChunks) ∧
    (RecordHttpArchiveFetch.call (fun _ _ => some (wLive, wChunks)) (fun _ => none)
        { use_deterministic_script := true, cache_misses := false } [] wReq []).2.1
      = Archive.set [] wReq (mkArchivedHttpResponse wLive wChunks) :=
  record_fetch_injection_failure_still_stores (fun _ _ => some (wLive, wChunks))
    (fun _ => none) { use_deterministic_script := true, cache_misses := false }
    [] wReq [] wLive wChunks rfl rfl rfl rfl

/-- Witness for C8: replay over an empty archive with a tracker configured
records exactly one miss. -/
theorem replay_fetch_tracker_once_witness :
    ({ use_diff_on_unknown_requests := false, cache_misses := true,
        use_closest_match := false } : ReplayHttpArchiveFetch).cache_misses = true ∧
    ((ReplayHttpArchiveFetch.call (fun _ _ => none) (fun _ _ => "")
        { use_diff_on_unknown_requests := false, cache_misses := true,
          use_closest_match := false } [] wReq []).2.2).filter Event.isTrackerRecord
      = [Event.trackerRecord wReq false
          ((ReplayHttpArchiveFetch.call (fun _ _ => none) (fun _ _ => "")
            { use_diff_on_unknown_requests := false, cache_misses := true,
              use_closest_match := false } [] wReq []).1).isNone] :=
  ⟨rfl, replay_fetch_tracker_once (fun _ _ => none) (fun _ _ => "")
    { use_diff_on_unknown_requests := false, cache_misses := true,
      use_closest_match := false } [] wReq [] rfl⟩

/-- The controllable fetch of the C9 witness, constructed in record mode
over an empty archive. -/
def wCtrl : ControllableHttpArchiveFetch :=
  ControllableHttpArchiveFetch.init [] false false true false false

/-- Witness for C9: record `wReq`, switch to replay mode, fetch `wReq`
again and get back exactly the recorded response. -/
theorem controllable_record_then_replay_witness :
    wCtrl.fetch = .record ∧
    (ControllableHttpArchiveFetch.call (fun _ _ => some (wLive, wChunks)) (fun _ => none)
        (fun _ _ => none) (fun _ _ => "") wCtrl wReq []).1
      = some (mkArchivedHttpResponse wLive wChunks) ∧
    (ControllableHttpArchiveFetch.call (fun _ _ => some (wLive, wChunks)) (fun _ => none)
        (fun _ _ => none) (fun _ _ => "")
        (((ControllableHttpArchiveFetch.call (fun _ _ => some (wLive, wChunks)) (fun _ => none)
            (fun _ _ => none) (fun _ _ => "") wCtrl wReq []).2.1).SetReplayMode)
        wReq []).1 = some (mkArchivedHttpResponse wLive wChunks) := by
  have hmode : wCtrl.fetch = .record := rfl
  have hrec : (ControllableHttpArchiveFetch.call (fun _ _ => some (wLive, wChunks))
      (fun _ => none) (fun _ _ => none) (fun _ _ => "") wCtrl wReq []).1
      = some (mkArchivedHttpResponse wLive wChunks) := by decide
  exact ⟨hmode, hrec,
    (controllable_record_then_replay (fun _ _ => some (wLive, wChunks)) (fun _ => none)
      (fun _ _ => none) (fun _ _ => "") wCtrl wReq [] [] _ hmode hrec).2⟩
